import Mathlib

/-!
Verification of the atat AT-command client engine against its specification.

The development shallowly embeds the two source files of the repository:

* `src/atat/src/client.rs` — the client engine (`Client`, `ClientState`,
  `Mode`, `send`, `check_response`, `peek_urc_with`, `reset`, `get_mode`).
  Queues are embedded as lists (front = next item to dequeue) with explicit
  capacities; the countdown timer records the duration of its most recent
  `start` call and carries an environment-chosen `expired` flag that a single
  `wait()` poll reads; the serial transport records written bytes and carries
  an explicit failure model.  `send` additionally returns an event trace so
  that ordering facts (cooldown wait before the first written byte) can be
  stated.

* `src/atat_derive/src/cmd.rs` — the generated `AtatCmd`/`Serialize`
  implementations.  The pieces of the repository that `cmd.rs` relies on but
  that are not under `src/` (the field sorting done by the derive input
  parser, `serde_at::to_vec`, and the `AtatLen` computation of `len.rs`) are
  modelled from the spec and are marked as such in their doc comments.
-/

namespace Atat

/-- Bytes on the wire, as natural numbers. -/
abbrev Byte := Nat

/-- `ClientState` from client.rs lines 10-14. -/
inductive ClientState where
  | Idle
  | AwaitingResponse
deriving DecidableEq, Repr

/-- `Mode` from client.rs lines 17-25. -/
inductive Mode where
  | Blocking
  | NonBlocking
  | Timeout
deriving DecidableEq, Repr

/-- `Config { mode, cmd_cooldown }`; the cooldown is a duration in ms. -/
structure Config where
  mode : Mode
  cmd_cooldown : Nat
deriving DecidableEq, Repr

/-- The signal commands the client can push to the ingress manager. -/
inductive Command where
  | Reset
  | ForceReceiveState
deriving DecidableEq, Repr

/-- The internal error carried in a response slot produced by the ingress
manager (`Result<Vec<u8>, InternalError>`).  Only its shape matters to the
client engine; `parse` of the command interprets it. -/
inductive InternalError where
  | Error (bytes : List Byte)
  | InvalidResponse
deriving DecidableEq, Repr

/-- `Error<E>` surfaced to the caller of send / check_response. -/
inductive Error (E : Type) where
  | Read
  | Write
  | Timeout
  | InvalidResponse
  | Aborted
  | Parse
  | Error (e : E)
deriving DecidableEq, Repr

/-- `nb::Error<E>`: would-block or a real error. -/
inductive NbError (E : Type) where
  | WouldBlock
  | Other (e : E)
deriving DecidableEq, Repr

/-- `nb::Result<R, Error<E>>`. -/
abbrev NbResult (R E : Type) := Except (NbError (Error E)) R

instance {ε α : Type} [DecidableEq ε] [DecidableEq α] : DecidableEq (Except ε α) :=
  fun x y =>
    match x, y with
    | Except.ok a, Except.ok b =>
      if h : a = b then isTrue (by rw [h]) else isFalse (by intro hh; cases hh; exact h rfl)
    | Except.error a, Except.error b =>
      if h : a = b then isTrue (by rw [h]) else isFalse (by intro hh; cases hh; exact h rfl)
    | Except.ok _, Except.error _ => isFalse (by intro hh; cases hh)
    | Except.error _, Except.ok _ => isFalse (by intro hh; cases hh)

/-- A response slot: `Result<raw byte buffer, InternalError>`. -/
abbrev ResItem := Except InternalError (List Byte)

/-- The `AtatCmd` trait, per concrete command value: its serialized bytes,
its parse function, and its declared metadata. -/
structure AtatCmd (R E : Type) where
  as_bytes : List Byte
  parse : Except InternalError (List Byte) → Except (Error E) R
  max_timeout_ms : Nat
  expects_response_code : Bool
  force_receive_state : Bool

/-- The countdown timer.  `lastStart` records the duration passed to the most
recent `start` call; `expired` is the environment-chosen answer a single
`wait()` poll observes (time itself is not modelled). -/
structure Timer where
  lastStart : Option Nat
  expired : Bool
deriving DecidableEq, Repr

/-- The serial transport.  `written` records successfully written bytes;
`failAfter = some k` makes the k-th next write call fail; `flushOk` is the
outcome of the flush call. -/
structure Tx where
  written : List Byte
  failAfter : Option Nat
  flushOk : Bool
deriving DecidableEq, Repr

/-- The client (client.rs lines 32-52): transport, the three hand-off queues
with their capacities, the two-state machine, the timer and the config.
Queues are lists whose head is the next item to dequeue. -/
structure Client where
  tx : Tx
  res_c : List ResItem
  urc_c : List (List Byte)
  com_p : List Command
  comCapacity : Nat
  resCapacity : Nat
  urcCapacity : Nat
  state : ClientState
  timer : Timer
  config : Config
deriving DecidableEq, Repr

/-- Events emitted by `send`, used to state ordering properties. -/
inductive Event where
  | comSignal (c : Command)
  | timerWait
  | write (b : Byte)
  | flush
  | timerStart (d : Nat)
deriving DecidableEq, Repr

/-- One serial write call: fails when the transport failure model says so,
otherwise appends the byte. -/
def txWrite (tx : Tx) (b : Byte) : Tx × Bool :=
  match tx.failAfter with
  | some 0 => (tx, false)
  | some (k + 1) => ({ tx with written := tx.written ++ [b], failAfter := some k }, true)
  | none => ({ tx with written := tx.written ++ [b] }, true)

/-- The write loop of send (client.rs lines 115-117): write byte by byte,
aborting at the first failure.  Returns the transport, the trace of
successful writes, and whether all bytes went out. -/
def writeAll (tx : Tx) : List Byte → Tx × List Event × Bool
  | [] => (tx, [], true)
  | b :: bs =>
    match txWrite tx b with
    | (tx1, true) =>
      let w := writeAll tx1 bs
      (w.1, Event.write b :: w.2.1, w.2.2)
    | (tx1, false) => (tx1, [], false)

/-- Enqueue on the bounded command-signal queue; fails (second component
false) when the queue is full, as heapless spsc enqueue does. -/
def comEnqueue (cl : Client) (c : Command) : Client × Bool :=
  if cl.com_p.length < cl.comCapacity then
    ({ cl with com_p := cl.com_p ++ [c] }, true)
  else
    (cl, false)

/-- `self.timer.start(self.config.cmd_cooldown)`. -/
def startCooldown (cl : Client) : Client :=
  { cl with timer := { cl.timer with lastStart := some cl.config.cmd_cooldown } }

/-- `check_response` (client.rs lines 151-184).  The trailing `map_err`
closure of the source runs on every error leaving the dequeue branch —
including the defensive would-block produced when a response is consumed in
`Idle` state — so it arms the cooldown and sets `Idle` on those paths too. -/
def check_response {R E : Type} (cl : Client) (cmd : AtatCmd R E) :
    Client × NbResult R E :=
  match cl.res_c with
  | result :: rest =>
    let cl1 := { cl with res_c := rest }
    match cmd.parse result with
    | Except.ok r =>
      match cl1.state with
      | ClientState.AwaitingResponse =>
        ({ startCooldown cl1 with state := ClientState.Idle }, Except.ok r)
      | ClientState.Idle =>
        ({ startCooldown cl1 with state := ClientState.Idle },
          Except.error NbError.WouldBlock)
    | Except.error e =>
      ({ startCooldown cl1 with state := ClientState.Idle },
        Except.error (NbError.Other e))
  | [] =>
    match cl.config.mode with
    | Mode.Timeout =>
      if cl.timer.expired then
        let cl1 := (comEnqueue cl Command.Reset).1
        ({ cl1 with state := ClientState.Idle },
          Except.error (NbError.Other Error.Timeout))
      else
        (cl, Except.error NbError.WouldBlock)
    | _ => (cl, Except.error NbError.WouldBlock)

/-- `cmd.parse(..).map_err(nb::Error::Other)`. -/
def nbOther {R E : Type} : Except (Error E) R → NbResult R E
  | Except.ok r => Except.ok r
  | Except.error e => Except.error (NbError.Other e)

/-- `nb::block!(check_response(..))`: retry while the poll reports
would-block.  In the pure embedding each retry consumes queue items or
nothing, so `res_c.length + 1` rounds of fuel decide the loop; running out of
fuel models the spin that in the source would continue forever. -/
def blockCheck {R E : Type} (cmd : AtatCmd R E) : Nat → Client → Client × NbResult R E
  | 0, cl => (cl, Except.error NbError.WouldBlock)
  | fuel + 1, cl =>
    let s := check_response cl cmd
    match s.2 with
    | Except.error NbError.WouldBlock => blockCheck cmd fuel s.1
    | r => (s.1, r)

/-- The tail of `send` after the transmit phase (client.rs lines 122-134):
the no-response shortcut, then the mode dispatch. -/
def sendTail {R E : Type} (cl : Client) (tr : List Event) (cmd : AtatCmd R E) :
    Client × List Event × NbResult R E :=
  if cmd.expects_response_code = false then
    ({ cl with state := ClientState.Idle }, tr, nbOther (cmd.parse (Except.ok [])))
  else
    match cl.config.mode with
    | Mode.Blocking =>
      let s := blockCheck cmd (cl.res_c.length + 1) cl
      (s.1, tr, s.2)
    | Mode.NonBlocking =>
      let s := check_response cl cmd
      (s.1, tr, s.2)
    | Mode.Timeout =>
      let cl1 := { cl with timer := { cl.timer with lastStart := some cmd.max_timeout_ms } }
      let s := blockCheck cmd (cl1.res_c.length + 1) cl1
      (s.1, tr ++ [Event.timerStart cmd.max_timeout_ms], s.2)

/-- The transmit phase of `send` from `Idle` (client.rs lines 100-120),
after the optional ForceReceiveState signal: blocking wait on the cooldown
timer, write all bytes then flush (any failure aborts with `Error::Write`
before the state changes), transition to `AwaitingResponse`, then
`sendTail`. -/
def sendXmit {R E : Type} (clF : Client) (trF : List Event) (cmd : AtatCmd R E) :
    Client × List Event × NbResult R E :=
  let w := writeAll clF.tx cmd.as_bytes
  let tr := trF ++ Event.timerWait :: w.2.1
  if w.2.2 then
    if w.1.flushOk then
      sendTail { clF with tx := w.1, state := ClientState.AwaitingResponse }
        (tr ++ [Event.flush]) cmd
    else
      ({ clF with tx := w.1 }, tr, Except.error (NbError.Other Error.Write))
  else
    ({ clF with tx := w.1 }, tr, Except.error (NbError.Other Error.Write))

/-- `send` (client.rs lines 90-135).  From `Idle`: best-effort
ForceReceiveState signal, then the transmit phase and `sendTail`.  From
`AwaitingResponse` (non-blocking re-poll): straight to `sendTail`. -/
def send {R E : Type} (cl : Client) (cmd : AtatCmd R E) :
    Client × List Event × NbResult R E :=
  match cl.state with
  | ClientState.AwaitingResponse => sendTail cl [] cmd
  | ClientState.Idle =>
    if cmd.force_receive_state then
      sendXmit (comEnqueue cl Command.ForceReceiveState).1
        [Event.comSignal Command.ForceReceiveState] cmd
    else
      sendXmit cl [] cmd

/-- `peek_urc_with` (client.rs lines 137-149): peek (not dequeue), arm the
cooldown, parse; on parse success ask the predicate — `false` leaves the
item queued, `true` dequeues it; on parse failure the item is dequeued. -/
def peek_urc_with {U : Type} (cl : Client) (urcParse : List Byte → Option U)
    (f : U → Bool) : Client :=
  match cl.urc_c with
  | [] => cl
  | u :: rest =>
    let cl1 := startCooldown cl
    match urcParse u with
    | some v => if f v then { cl1 with urc_c := rest } else cl1
    | none => { cl1 with urc_c := rest }

/-- The bounded drain loop of `reset` (client.rs lines 196-205): dequeue up
to `n` times, stopping early when the queue reports empty. -/
def drain {α : Type} : Nat → List α → List α
  | 0, q => q
  | _ + 1, [] => []
  | n + 1, _ :: rest => drain n rest

/-- `reset` (client.rs lines 190-206): best-effort Reset signal, then drain
both data queues, each loop bounded by the capacity of that queue. -/
def reset (cl : Client) : Client :=
  let cl1 := (comEnqueue cl Command.Reset).1
  let cl2 := { cl1 with res_c := drain cl1.resCapacity cl1.res_c }
  { cl2 with urc_c := drain cl2.urcCapacity cl2.urc_c }

/-- `get_mode` (client.rs lines 186-188). -/
def get_mode (cl : Client) : Mode :=
  cl.config.mode

end Atat

namespace Derive

/-- One field of a command struct as the derive sees it: its name, its
declared wire position (`#[at_arg(position = ..)]`), and the bytes its value
encodes to on the wire. -/
structure FieldSpec where
  name : String
  position : Nat
  encoded : List Atat.Byte
deriving DecidableEq, Repr

/-- Comparison of fields by declared wire position. -/
def fieldLE (a b : FieldSpec) : Prop :=
  a.position ≤ b.position

/-- Strict comparison of fields by declared wire position. -/
def fieldLT (a b : FieldSpec) : Prop :=
  a.position < b.position

instance : DecidableRel fieldLE :=
  fun a b => Nat.decLe a.position b.position

instance : DecidableRel fieldLT :=
  fun a b => Nat.decLt a.position b.position

instance : IsTotal FieldSpec fieldLE :=
  ⟨fun a b => Nat.le_total a.position b.position⟩

instance : IsTrans FieldSpec fieldLE :=
  ⟨fun _ _ _ h1 h2 => Nat.le_trans h1 h2⟩

instance : IsAntisymm FieldSpec fieldLT :=
  ⟨fun _ _ h1 h2 => absurd (Nat.lt_trans h1 h2) (Nat.lt_irrefl _)⟩

/-- Modelled from the spec: the derive input parsing step (the parse.rs of atat_derive,
not under src/) hands cmd.rs the declared fields sorted by their wire
position ("the codec must support out-of-order field declarations mapped to
positional wire order"), so the `serialize_field` calls generated by cmd.rs
lines 145-151 run in wire-position order regardless of declaration order. -/
def sortFields (fields : List FieldSpec) : List FieldSpec :=
  List.insertionSort fieldLE fields

/-- Comma-joined argument encodings. -/
def joinComma : List (List Atat.Byte) → List Atat.Byte
  | [] => []
  | [x] => x
  | x :: xs => x ++ (44 : Atat.Byte) :: joinComma xs

/-- The serialization attributes of one command type, from its `#[at_cmd]`
attribute: command prefix (`cmd_prefix`, normally "AT"), command name
(`cmd`), whether a value separator is emitted, and the termination bytes. -/
structure CmdSchema where
  cmdPre : List Atat.Byte
  cmdName : List Atat.Byte
  value_sep : Bool
  termination : List Atat.Byte
deriving DecidableEq, Repr

/-- The argument encodings the generated Serialize impl emits, one
`serialize_field` call per field, in the order of the (position-sorted)
parsed variants (cmd.rs lines 129-155). -/
def serializedArgs (fields : List FieldSpec) : List (List Atat.Byte) :=
  (sortFields fields).map FieldSpec.encoded

/-- Modelled from the spec: the rendering of serde_at::to_vec (the serde_at crate
is not under src/) — "fixed command prefix, command name, an optional value
separator, positionally-ordered and comma-joined argument encodings, and a
fixed termination sequence". -/
def renderCmd (s : CmdSchema) (args : List (List Atat.Byte)) : List Atat.Byte :=
  s.cmdPre ++ s.cmdName ++ (if s.value_sep then [61] else []) ++ joinComma args ++ s.termination

/-- The bytes `as_bytes` produces when serialization succeeds (cmd.rs lines
100-110 feeding the generated Serialize impl into serde_at::to_vec). -/
def as_bytes (s : CmdSchema) (fields : List FieldSpec) : List Atat.Byte :=
  renderCmd s (serializedArgs fields)

/-- `cmd_len` (cmd.rs lines 69-72): prefix + name + termination, plus one
for the value separator when configured. -/
def cmd_len (s : CmdSchema) : Nat :=
  s.cmdPre.length + s.cmdName.length + s.termination.length +
    (if s.value_sep then 1 else 0)

/-- `CommandLen` (cmd.rs line 97): the `AtatLen` of the struct (computed by
len.rs, which is not under src/ and is therefore kept as the parameter
`structLen`) plus `cmd_len`. -/
def commandLen (s : CmdSchema) (structLen : Nat) : Nat :=
  structLen + cmd_len s

/-- Modelled from the spec: serde_at::to_vec (not under src/) serializes
into a fixed-capacity vector of size `cap` and fails exactly when the
rendered bytes exceed that capacity. -/
def to_vec (cap : Nat) (bs : List Atat.Byte) : Option (List Atat.Byte) :=
  if bs.length ≤ cap then some bs else none

/-- The generated `as_bytes` (cmd.rs lines 100-110): serde_at::to_vec with
capacity `CommandLen`; `none` is the `panic!` branch taken when to_vec
fails. -/
def as_bytes_checked (s : CmdSchema) (structLen : Nat) (fields : List FieldSpec) :
    Option (List Atat.Byte) :=
  to_vec (commandLen s structLen) (as_bytes s fields)

end Derive

namespace Atat

/-! Concrete fixtures used to instantiate the theorems, mirroring the test
setup of client.rs (queue capacities, `cmd_cooldown`, and the commands of
its `mod test`). -/

/-- A command whose parse always succeeds with `()`. -/
def cmdOkUnit : AtatCmd Unit Unit :=
  { as_bytes := [65, 84, 13, 10]
    parse := fun _ => Except.ok ()
    max_timeout_ms := 1000
    expects_response_code := true
    force_receive_state := false }

/-- A command whose parse always fails with `Error::Parse`. -/
def cmdParseFail : AtatCmd Unit Unit :=
  { cmdOkUnit with parse := fun _ => Except.error Error.Parse }

/-- A command declaring that it expects no response payload. -/
def cmdNoResp : AtatCmd Unit Unit :=
  { cmdOkUnit with expects_response_code := false }

/-- A freshly constructed idle client. -/
def baseClient : Client :=
  { tx := { written := [], failAfter := none, flushOk := true }
    res_c := []
    urc_c := []
    com_p := []
    comCapacity := 3
    resCapacity := 5
    urcCapacity := 10
    state := ClientState.Idle
    timer := { lastStart := none, expired := false }
    config := { mode := Mode.Blocking, cmd_cooldown := 20 } }

/-- A client awaiting a response with both data queues at full capacity. -/
def clResetCex : Client :=
  { baseClient with
    state := ClientState.AwaitingResponse
    res_c := [Except.ok [1], Except.ok [2], Except.ok [3], Except.ok [4], Except.ok [5]]
    urc_c := [[1], [2], [3], [4], [5], [6], [7], [8], [9], [10]] }

/-- A client in Timeout mode whose per-command timer (armed to the command
timeout of the Test2Cmd of client.rs) has expired with nothing enqueued. -/
def clTimeoutCex : Client :=
  { baseClient with
    state := ClientState.AwaitingResponse
    timer := { lastStart := some 180000, expired := true }
    config := { mode := Mode.Timeout, cmd_cooldown := 20 } }

/-- An idle client with a spurious item sitting in the response queue. -/
def clSpurious : Client :=
  { baseClient with res_c := [Except.ok [1]] }

/-- A client awaiting a response with one well-formed item enqueued. -/
def clAwaitOne : Client :=
  { baseClient with
    state := ClientState.AwaitingResponse
    res_c := [Except.ok []] }

/-- An idle non-blocking client. -/
def clNonBlocking : Client :=
  { baseClient with config := { mode := Mode.NonBlocking, cmd_cooldown := 20 } }

/-- An idle client whose transport fails on the second write call. -/
def clWriteFail : Client :=
  { baseClient with tx := { written := [], failAfter := some 1, flushOk := true } }

/-- An idle client with two URC records queued. -/
def clUrc : Client :=
  { baseClient with urc_c := [[1, 2], [3]] }

/-- A URC parse function that always recognizes the record as `0`. -/
def urcParseOk : List Byte → Option Nat :=
  fun _ => some 0

/-- A URC parse function that never recognizes the record. -/
def urcParseNone : List Byte → Option Nat :=
  fun _ => none

/-- A predicate declining every URC. -/
def predFalse : Nat → Bool :=
  fun _ => false

/-- A predicate accepting every URC. -/
def predTrue : Nat → Bool :=
  fun _ => true

end Atat

namespace Derive

/-- The `fun` field of the Test2Cmd of client.rs: declared first, wire position
1, value `Functionality::DM` encoding to "6". -/
def funField : FieldSpec :=
  { name := "fun", position := 1, encoded := [54] }

/-- The `rst` field of the Test2Cmd of client.rs: declared second, wire position
0, value `Some(ResetMode::Reset)` encoding to "1". -/
def rstField : FieldSpec :=
  { name := "rst", position := 0, encoded := [49] }

/-- The `#[at_cmd("+FUN", ..)]` schema of the Test2Cmd of client.rs: prefix "AT",
name "+FUN", value separator "=", termination "\r\n". -/
def test2Schema : CmdSchema :=
  { cmdPre := [65, 84]
    cmdName := [43, 70, 85, 78]
    value_sep := true
    termination := [13, 10] }

end Derive

open Atat Derive

/-! Helper lemmas. -/

/-- The bounded drain loop empties any queue whose length is at most the
loop bound. -/
theorem drain_eq_nil {α : Type} :
    ∀ (n : Nat) (q : List α), q.length ≤ n → drain n q = [] := by
  intro n
  induction n with
  | zero =>
    intro q hq
    cases q with
    | nil => rfl
    | cons a rest => simp at hq
  | succ n ih =>
    intro q hq
    cases q with
    | nil => rfl
    | cons a rest =>
      simp only [List.length_cons, Nat.succ_le_succ_iff] at hq
      exact ih rest hq

@[simp] theorem comEnqueue_fst_tx (cl : Client) (c : Command) :
    ((comEnqueue cl c).1).tx = cl.tx := by
  unfold comEnqueue; split <;> rfl

@[simp] theorem comEnqueue_fst_res_c (cl : Client) (c : Command) :
    ((comEnqueue cl c).1).res_c = cl.res_c := by
  unfold comEnqueue; split <;> rfl

@[simp] theorem comEnqueue_fst_urc_c (cl : Client) (c : Command) :
    ((comEnqueue cl c).1).urc_c = cl.urc_c := by
  unfold comEnqueue; split <;> rfl

@[simp] theorem comEnqueue_fst_state (cl : Client) (c : Command) :
    ((comEnqueue cl c).1).state = cl.state := by
  unfold comEnqueue; split <;> rfl

@[simp] theorem comEnqueue_fst_timer (cl : Client) (c : Command) :
    ((comEnqueue cl c).1).timer = cl.timer := by
  unfold comEnqueue; split <;> rfl

@[simp] theorem comEnqueue_fst_config (cl : Client) (c : Command) :
    ((comEnqueue cl c).1).config = cl.config := by
  unfold comEnqueue; split <;> rfl

@[simp] theorem comEnqueue_fst_resCapacity (cl : Client) (c : Command) :
    ((comEnqueue cl c).1).resCapacity = cl.resCapacity := by
  unfold comEnqueue; split <;> rfl

@[simp] theorem comEnqueue_fst_urcCapacity (cl : Client) (c : Command) :
    ((comEnqueue cl c).1).urcCapacity = cl.urcCapacity := by
  unfold comEnqueue; split <;> rfl

/-- When the transport has no pending failure, the write loop writes every
byte, reports success, and leaves the flush outcome and failure model
untouched. -/
theorem writeAll_ok :
    ∀ (bs : List Byte) (tx : Tx), tx.failAfter = none →
      (writeAll tx bs).1 =
        { written := tx.written ++ bs, failAfter := none, flushOk := tx.flushOk } ∧
      (writeAll tx bs).2.2 = true := by
  intro bs
  induction bs with
  | nil =>
    intro tx h
    refine ⟨?_, rfl⟩
    simp only [writeAll, List.append_nil]
    cases tx
    simp_all
  | cons b bs ih =>
    intro tx h
    have hw : txWrite tx b = ({ tx with written := tx.written ++ [b] }, true) := by
      simp [txWrite, h]
    have ihx := ih { tx with written := tx.written ++ [b] } (by simp [h])
    simp only [writeAll, hw] at *
    refine ⟨?_, ihx.2⟩
    rw [ihx.1]
    simp

/-- The trace `sendTail` returns always extends the trace it was given. -/
theorem sendTail_trace {R E : Type} (cl : Client) (tr : List Event) (cmd : AtatCmd R E) :
    ∃ suf, (sendTail cl tr cmd).2.1 = tr ++ suf := by
  unfold sendTail
  by_cases h : cmd.expects_response_code = false
  · exact ⟨[], by simp [h]⟩
  · simp only [h, if_false]
    cases hm : cl.config.mode with
    | Blocking => exact ⟨[], by simp⟩
    | NonBlocking => exact ⟨[], by simp⟩
    | Timeout => exact ⟨[Event.timerStart cmd.max_timeout_ms], by simp⟩

/-- When the transport has no pending failure and the flush succeeds, the
transmit phase hands over to `sendTail` with all bytes written, the state
set to `AwaitingResponse`, and the flush event appended to the trace. -/
theorem sendXmit_ok {R E : Type} (clF : Client) (trF : List Event) (cmd : AtatCmd R E)
    (hfa : clF.tx.failAfter = none) (hfl : clF.tx.flushOk = true) :
    sendXmit clF trF cmd =
      sendTail
        { clF with
          tx := { written := clF.tx.written ++ cmd.as_bytes, failAfter := none, flushOk := true }
          state := ClientState.AwaitingResponse }
        ((trF ++ Event.timerWait :: (writeAll clF.tx cmd.as_bytes).2.1) ++ [Event.flush]) cmd := by
  have W := writeAll_ok cmd.as_bytes clF.tx hfa
  simp only [sendXmit, W.1, W.2, hfl, ite_true]

/-- If the write loop or the flush fails, the transmit phase aborts with a
write-error outcome and leaves the state as it was. -/
theorem sendXmit_write_failure {R E : Type} (clF : Client) (trF : List Event)
    (cmd : AtatCmd R E)
    (hw : (writeAll clF.tx cmd.as_bytes).2.2 = false ∨
          (writeAll clF.tx cmd.as_bytes).1.flushOk = false) :
    (sendXmit clF trF cmd).2.2 = Except.error (NbError.Other Error.Write) ∧
    (sendXmit clF trF cmd).1.state = clF.state ∧
    (sendXmit clF trF cmd).1.res_c = clF.res_c := by
  unfold sendXmit
  rcases hw with h | h
  · simp [h]
  · cases hok : (writeAll clF.tx cmd.as_bytes).2.2 <;> simp [h, hok]

/-- The trace the transmit phase returns always extends the given prefix
with the timer wait followed by write events only. -/
theorem sendXmit_trace {R E : Type} (clF : Client) (trF : List Event) (cmd : AtatCmd R E) :
    ∃ suf, (sendXmit clF trF cmd).2.1 = trF ++ Event.timerWait :: suf := by
  unfold sendXmit
  generalize writeAll clF.tx cmd.as_bytes = w
  cases hok : w.2.2
  · exact ⟨w.2.1, by simp [hok]⟩
  · cases hfl : w.1.flushOk
    · exact ⟨w.2.1, by simp [hok, hfl]⟩
    · obtain ⟨suf, hsuf⟩ := sendTail_trace
        { clF with tx := w.1, state := ClientState.AwaitingResponse }
        ((trF ++ Event.timerWait :: w.2.1) ++ [Event.flush]) cmd
      refine ⟨w.2.1 ++ [Event.flush] ++ suf, ?_⟩
      simp only [hok, hfl, if_true]
      rw [hsuf]
      simp


/-- A list sorted by field position whose positions are distinct is sorted
strictly. -/
theorem sorted_fieldLT_of_le_nodup :
    ∀ l : List FieldSpec, List.Sorted fieldLE l →
      (l.map FieldSpec.position).Nodup → List.Sorted fieldLT l := by
  intro l
  induction l with
  | nil => intro _ _; simp
  | cons a l ih =>
    intro hs hnd
    rw [List.sorted_cons] at hs ⊢
    rw [List.map_cons, List.nodup_cons] at hnd
    refine ⟨fun b hb => ?_, ih hs.2 hnd.2⟩
    have hle : a.position ≤ b.position := hs.1 b hb
    have hne : a.position ≠ b.position := by
      intro he
      exact hnd.1 (he ▸ List.mem_map_of_mem FieldSpec.position hb)
    exact Nat.lt_of_le_of_ne hle hne

/-- Sorting by wire position is insensitive to the declaration order of the
fields, provided the declared positions are distinct. -/
theorem sortFields_eq_of_perm (fs fs2 : List FieldSpec)
    (hperm : fs.Perm fs2)
    (hnd : (fs.map FieldSpec.position).Nodup) :
    sortFields fs = sortFields fs2 := by
  have perm1 : (sortFields fs).Perm fs := List.perm_insertionSort fieldLE fs
  have perm2 : (sortFields fs2).Perm fs2 := List.perm_insertionSort fieldLE fs2
  have permT : (sortFields fs).Perm (sortFields fs2) :=
    perm1.trans (hperm.trans perm2.symm)
  have hnd2 : (fs2.map FieldSpec.position).Nodup :=
    ((hperm.map FieldSpec.position).nodup_iff).mp hnd
  have nodup1 : ((sortFields fs).map FieldSpec.position).Nodup :=
    ((perm1.map FieldSpec.position).nodup_iff).mpr hnd
  have nodup2 : ((sortFields fs2).map FieldSpec.position).Nodup :=
    ((perm2.map FieldSpec.position).nodup_iff).mpr hnd2
  have s1 : List.Sorted fieldLT (sortFields fs) :=
    sorted_fieldLT_of_le_nodup _ (List.sorted_insertionSort fieldLE fs) nodup1
  have s2 : List.Sorted fieldLT (sortFields fs2) :=
    sorted_fieldLT_of_le_nodup _ (List.sorted_insertionSort fieldLE fs2) nodup2
  exact List.eq_of_perm_of_sorted permT s1 s2


/-! Claim theorems. -/

/-- C1 counterexample: `reset` never writes the state field.  On a client
that is awaiting a response with both data queues at full capacity, `reset`
drains both queues but leaves the state `AwaitingResponse`, not `Idle`. -/
theorem reset_leaves_state_cex :
    (reset clResetCex).state ≠ ClientState.Idle ∧
    (reset clResetCex).res_c = [] ∧
    (reset clResetCex).urc_c = [] := by decide

/-- C1 (amended): for every client whose queue lengths respect their
capacities, `reset` drains the response queue and the URC queue completely
(its loops are bounded by the compile-time capacities, so it terminates),
but it leaves the client state unchanged; the state is `Idle` afterwards
only when it already was. -/
theorem reset_drains_queues (cl : Client)
    (hres : cl.res_c.length ≤ cl.resCapacity)
    (hurc : cl.urc_c.length ≤ cl.urcCapacity) :
    (reset cl).res_c = [] ∧
    (reset cl).urc_c = [] ∧
    (reset cl).state = cl.state := by
  unfold reset
  refine ⟨?_, ?_, ?_⟩
  · simp only [comEnqueue_fst_res_c, comEnqueue_fst_resCapacity]
    exact drain_eq_nil cl.resCapacity cl.res_c hres
  · simp only [comEnqueue_fst_urc_c, comEnqueue_fst_urcCapacity]
    exact drain_eq_nil cl.urcCapacity cl.urc_c hurc
  · simp only [comEnqueue_fst_state]

/-- C1 witness: the amended theorem at the full-capacity fixture. -/
theorem reset_drains_queues_witness :
    (reset clResetCex).res_c = [] ∧
    (reset clResetCex).urc_c = [] ∧
    (reset clResetCex).state = clResetCex.state :=
  reset_drains_queues clResetCex (by decide) (by decide)

/-- C2 counterexample: the timeout-expiry path leaves `AwaitingResponse` for
`Idle` without re-arming the cooldown timer — the last timer start is still
the per-command timeout duration, not the configured cooldown. -/
theorem cooldown_not_rearmed_cex :
    clTimeoutCex.state = ClientState.AwaitingResponse ∧
    (check_response clTimeoutCex cmdOkUnit).1.state = ClientState.Idle ∧
    (check_response clTimeoutCex cmdOkUnit).1.timer.lastStart ≠
      some clTimeoutCex.config.cmd_cooldown := by decide

/-- C2 (amended): the cooldown timer is re-armed on the two
response-consumption paths out of `AwaitingResponse` (successful decode and
decode failure), and `send` performs its blocking timer wait before writing
the first byte of a new command; the timeout-expiry path and the
no-response-payload shortcut return to `Idle` without re-arming it. -/
theorem cooldown_arming {R E R2 E2 : Type} (cl cl2 : Client)
    (cmd : AtatCmd R E) (cmd2 : AtatCmd R2 E2)
    (item : ResItem) (rest : List ResItem)
    (hq : cl.res_c = item :: rest)
    (hst : cl.state = ClientState.AwaitingResponse)
    (hst2 : cl2.state = ClientState.Idle) :
    ((check_response cl cmd).1.timer.lastStart = some cl.config.cmd_cooldown ∧
     (check_response cl cmd).1.state = ClientState.Idle) ∧
    (∃ pre post, (send cl2 cmd2).2.1 = pre ++ Event.timerWait :: post ∧
      ∀ b : Byte, Event.write b ∉ pre) := by
  constructor
  · cases hp : cmd.parse item <;>
      simp [check_response, hq, hp, hst, startCooldown]
  · cases hf : cmd2.force_receive_state <;>
      simp only [send, hst2, hf, Bool.false_eq_true, ite_false, ite_true]
    · obtain ⟨suf, hsuf⟩ := sendXmit_trace cl2 [] cmd2
      exact ⟨[], suf, by simpa using hsuf, by simp⟩
    · obtain ⟨suf, hsuf⟩ := sendXmit_trace (comEnqueue cl2 Command.ForceReceiveState).1
        [Event.comSignal Command.ForceReceiveState] cmd2
      exact ⟨[Event.comSignal Command.ForceReceiveState], suf, by simpa using hsuf, by simp⟩

/-- C2 witness: the amended theorem at a concrete response consumption and a
concrete idle send. -/
theorem cooldown_arming_witness :
    ((check_response clAwaitOne cmdOkUnit).1.timer.lastStart =
      some clAwaitOne.config.cmd_cooldown ∧
     (check_response clAwaitOne cmdOkUnit).1.state = ClientState.Idle) ∧
    (∃ pre post, (send baseClient cmdOkUnit).2.1 = pre ++ Event.timerWait :: post ∧
      ∀ b : Byte, Event.write b ∉ pre) :=
  cooldown_arming clAwaitOne baseClient cmdOkUnit cmdOkUnit (Except.ok []) [] rfl rfl rfl

/-- C4 counterexample: an item dequeued while the state is `Idle` whose
decode fails is surfaced to the caller as the ordinary decode error
(`Error::Parse` here), not suppressed. -/
theorem spurious_decode_failure_cex :
    clSpurious.state = ClientState.Idle ∧
    (check_response clSpurious cmdParseFail).2 =
      Except.error (NbError.Other Error.Parse) := by decide

/-- C4 (amended): when `check_response` dequeues an item while the state is
`Idle`, a successfully decoded value is discarded and would-block returned;
but an item whose decode fails is surfaced as the ordinary decode error
(with the item consumed and the state left `Idle`). -/
theorem spurious_response_policy {R E : Type} (cl : Client) (cmd : AtatCmd R E)
    (item : ResItem) (rest : List ResItem)
    (hq : cl.res_c = item :: rest)
    (hst : cl.state = ClientState.Idle) :
    (∀ r : R, cmd.parse item = Except.ok r →
      (check_response cl cmd).2 = Except.error NbError.WouldBlock ∧
      (check_response cl cmd).1.res_c = rest) ∧
    (∀ e : Error E, cmd.parse item = Except.error e →
      (check_response cl cmd).2 = Except.error (NbError.Other e) ∧
      (check_response cl cmd).1.res_c = rest ∧
      (check_response cl cmd).1.state = ClientState.Idle) := by
  constructor
  · intro r hp
    simp [check_response, hq, hp, hst, startCooldown]
  · intro e hp
    simp [check_response, hq, hp, hst, startCooldown]

/-- C4 witness: the amended theorem at the spurious-item fixture with a
command whose decode succeeds. -/
theorem spurious_response_policy_witness :
    (check_response clSpurious cmdOkUnit).2 = Except.error NbError.WouldBlock ∧
    (check_response clSpurious cmdOkUnit).1.res_c = [] :=
  (spurious_response_policy clSpurious cmdOkUnit (Except.ok [1]) [] rfl rfl).1 () rfl

/-- C5: in Timeout mode, with nothing in the response queue and the timer
expired, `check_response` returns a timeout error, transitions the state to
`Idle`, and best-effort enqueues a `Reset` signal (a full signal queue is
tolerated; the timeout error is returned either way). -/
theorem timeout_expiry_policy {R E : Type} (cl : Client) (cmd : AtatCmd R E)
    (hq : cl.res_c = [])
    (hm : cl.config.mode = Mode.Timeout)
    (hexp : cl.timer.expired = true) :
    (check_response cl cmd).2 = Except.error (NbError.Other Error.Timeout) ∧
    (check_response cl cmd).1.state = ClientState.Idle ∧
    (check_response cl cmd).1.com_p =
      (if cl.com_p.length < cl.comCapacity then cl.com_p ++ [Command.Reset] else cl.com_p) := by
  simp only [check_response, hq, hm, hexp, if_true]
  refine ⟨trivial, trivial, ?_⟩
  unfold comEnqueue
  split <;> rfl

/-- C5 witness: the theorem at the expired-timer fixture. -/
theorem timeout_expiry_policy_witness :
    (check_response clTimeoutCex cmdOkUnit).2 = Except.error (NbError.Other Error.Timeout) ∧
    (check_response clTimeoutCex cmdOkUnit).1.state = ClientState.Idle ∧
    (check_response clTimeoutCex cmdOkUnit).1.com_p =
      (if clTimeoutCex.com_p.length < clTimeoutCex.comCapacity
        then clTimeoutCex.com_p ++ [Command.Reset] else clTimeoutCex.com_p) :=
  timeout_expiry_policy clTimeoutCex cmdOkUnit rfl rfl rfl

/-- C7: a command declaring it expects no response payload makes `send`
return the parse of an empty buffer immediately; the state is `Idle` after
the call (as before it, by hypothesis) and the response queue is never
consulted. -/
theorem no_response_shortcut {R E : Type} (cl : Client) (cmd : AtatCmd R E)
    (hst : cl.state = ClientState.Idle)
    (hexp : cmd.expects_response_code = false)
    (hfa : cl.tx.failAfter = none)
    (hfl : cl.tx.flushOk = true) :
    (send cl cmd).2.2 = nbOther (cmd.parse (Except.ok [])) ∧
    (send cl cmd).1.state = ClientState.Idle ∧
    (send cl cmd).1.res_c = cl.res_c := by
  cases hf : cmd.force_receive_state <;>
    simp only [send, hst, hf, Bool.false_eq_true, ite_false, ite_true]
  · rw [sendXmit_ok cl [] cmd hfa hfl]
    simp [sendTail, hexp]
  · rw [sendXmit_ok (comEnqueue cl Command.ForceReceiveState).1
      [Event.comSignal Command.ForceReceiveState] cmd (by simp [hfa]) (by simp [hfl])]
    simp [sendTail, hexp]

/-- C7 witness: the theorem at the no-response command fixture. -/
theorem no_response_shortcut_witness :
    (send baseClient cmdNoResp).2.2 = nbOther (cmdNoResp.parse (Except.ok [])) ∧
    (send baseClient cmdNoResp).1.state = ClientState.Idle ∧
    (send baseClient cmdNoResp).1.res_c = baseClient.res_c :=
  no_response_shortcut baseClient cmdNoResp rfl rfl rfl rfl

/-- C8: if any transport byte write or the final flush fails inside `send`,
the call aborts with a write-error outcome and the state remains `Idle` —
the command is considered never sent. -/
theorem write_failure_aborts_send {R E : Type} (cl : Client) (cmd : AtatCmd R E)
    (hst : cl.state = ClientState.Idle)
    (hw : (writeAll cl.tx cmd.as_bytes).2.2 = false ∨
          (writeAll cl.tx cmd.as_bytes).1.flushOk = false) :
    (send cl cmd).2.2 = Except.error (NbError.Other Error.Write) ∧
    (send cl cmd).1.state = ClientState.Idle := by
  cases hf : cmd.force_receive_state <;>
    simp only [send, hst, hf, Bool.false_eq_true, ite_false, ite_true]
  · obtain ⟨h1, h2, h3⟩ := sendXmit_write_failure cl [] cmd hw
    exact ⟨h1, h2.trans hst⟩
  · have hw2 : (writeAll ((comEnqueue cl Command.ForceReceiveState).1).tx cmd.as_bytes).2.2 = false ∨
        (writeAll ((comEnqueue cl Command.ForceReceiveState).1).tx cmd.as_bytes).1.flushOk = false := by
      simpa using hw
    obtain ⟨h1, h2, h3⟩ := sendXmit_write_failure (comEnqueue cl Command.ForceReceiveState).1
      [Event.comSignal Command.ForceReceiveState] cmd hw2
    refine ⟨h1, ?_⟩
    rw [h2]
    simp [hst]

/-- C8 witness: the theorem at the failing-transport fixture. -/
theorem write_failure_aborts_send_witness :
    (send clWriteFail cmdOkUnit).2.2 = Except.error (NbError.Other Error.Write) ∧
    (send clWriteFail cmdOkUnit).1.state = ClientState.Idle :=
  write_failure_aborts_send clWriteFail cmdOkUnit rfl (Or.inl (by decide))

/-- C6: in NonBlocking mode, a `send` from `Idle` with nothing enqueued
writes and flushes the command bytes exactly once, returns would-block and
leaves the state `AwaitingResponse`; a `check_response` after a well-formed
response has been enqueued returns the decoded value and restores `Idle`. -/
theorem nonblocking_send_then_check {R E : Type} (cl : Client) (cmd : AtatCmd R E)
    (item : ResItem) (r : R)
    (hst : cl.state = ClientState.Idle)
    (hm : cl.config.mode = Mode.NonBlocking)
    (hq : cl.res_c = [])
    (hfa : cl.tx.failAfter = none)
    (hfl : cl.tx.flushOk = true)
    (hexp : cmd.expects_response_code = true)
    (hp : cmd.parse item = Except.ok r) :
    (send cl cmd).2.2 = Except.error NbError.WouldBlock ∧
    (send cl cmd).1.state = ClientState.AwaitingResponse ∧
    (send cl cmd).1.tx.written = cl.tx.written ++ cmd.as_bytes ∧
    (check_response { (send cl cmd).1 with res_c := (send cl cmd).1.res_c ++ [item] } cmd).2 =
      Except.ok r ∧
    (check_response { (send cl cmd).1 with res_c := (send cl cmd).1.res_c ++ [item] } cmd).1.state =
      ClientState.Idle := by
  cases hf : cmd.force_receive_state <;>
    simp only [send, hst, hf, Bool.false_eq_true, ite_false, ite_true]
  · rw [sendXmit_ok cl [] cmd hfa hfl]
    simp [sendTail, hexp, hm, check_response, hq, hp, startCooldown]
  · rw [sendXmit_ok (comEnqueue cl Command.ForceReceiveState).1
      [Event.comSignal Command.ForceReceiveState] cmd (by simp [hfa]) (by simp [hfl])]
    simp [sendTail, hexp, hm, check_response, hq, hp, startCooldown]

/-- C6 witness: the theorem at the non-blocking fixture. -/
theorem nonblocking_send_then_check_witness :
    (send clNonBlocking cmdOkUnit).2.2 = Except.error NbError.WouldBlock ∧
    (send clNonBlocking cmdOkUnit).1.state = ClientState.AwaitingResponse ∧
    (send clNonBlocking cmdOkUnit).1.tx.written =
      clNonBlocking.tx.written ++ cmdOkUnit.as_bytes ∧
    (check_response { (send clNonBlocking cmdOkUnit).1 with
        res_c := (send clNonBlocking cmdOkUnit).1.res_c ++ [Except.ok []] } cmdOkUnit).2 =
      Except.ok () ∧
    (check_response { (send clNonBlocking cmdOkUnit).1 with
        res_c := (send clNonBlocking cmdOkUnit).1.res_c ++ [Except.ok []] } cmdOkUnit).1.state =
      ClientState.Idle :=
  nonblocking_send_then_check clNonBlocking cmdOkUnit (Except.ok []) ()
    rfl rfl rfl rfl rfl rfl rfl

/-- C9: with a URC record queued, `peek_urc_with` under a declining
predicate leaves the URC queue unchanged and has no side effect beyond
arming the cooldown timer; under an accepting predicate it removes exactly
the peeked item; a record that fails to decode is consumed as well. -/
theorem peek_urc_policy {U : Type} (cl : Client) (urcParse : List Byte → Option U)
    (f : U → Bool) (u : List Byte) (rest : List (List Byte))
    (hq : cl.urc_c = u :: rest) :
    (∀ v : U, urcParse u = some v → f v = false →
      (peek_urc_with cl urcParse f).urc_c = cl.urc_c ∧
      peek_urc_with cl urcParse f = startCooldown cl) ∧
    (∀ v : U, urcParse u = some v → f v = true →
      (peek_urc_with cl urcParse f).urc_c = rest) ∧
    (urcParse u = none →
      (peek_urc_with cl urcParse f).urc_c = rest) := by
  refine ⟨?_, ?_, ?_⟩
  · intro v hv hfv
    constructor
    · simp [peek_urc_with, hq, hv, hfv, startCooldown]
    · simp [peek_urc_with, hq, hv, hfv]
  · intro v hv hfv
    simp [peek_urc_with, hq, hv, hfv]
  · intro hv
    simp [peek_urc_with, hq, hv]

/-- C9 witness: the theorem at the queued-URC fixture with a decode that
succeeds and a predicate that declines. -/
theorem peek_urc_policy_witness :
    (peek_urc_with clUrc urcParseOk predFalse).urc_c = clUrc.urc_c ∧
    peek_urc_with clUrc urcParseOk predFalse = startCooldown clUrc :=
  (peek_urc_policy clUrc urcParseOk predFalse [1, 2] [[3]] rfl).1 0 rfl rfl

/-- C3: the serialized byte sequence orders the argument encodings by each
declared wire position of each field: the emitted field order is sorted by
position and is a permutation of the declared fields, and the output is
invariant under any reordering of the declaration. -/
theorem as_bytes_wire_position_order (s : CmdSchema) (fs fs2 : List FieldSpec)
    (hperm : fs.Perm fs2)
    (hnd : (fs.map FieldSpec.position).Nodup) :
    Derive.as_bytes s fs = Derive.as_bytes s fs2 ∧
    List.Sorted fieldLE (sortFields fs) ∧
    (sortFields fs).Perm fs := by
  refine ⟨?_, List.sorted_insertionSort fieldLE fs, List.perm_insertionSort fieldLE fs⟩
  unfold Derive.as_bytes serializedArgs
  rw [sortFields_eq_of_perm fs fs2 hperm hnd]

/-- C3 witness: the fields of the Test2Cmd of client.rs (`fun` declared first at
position 1, `rst` second at position 0), in either declaration order. -/
theorem as_bytes_wire_position_order_witness :
    Derive.as_bytes test2Schema [funField, rstField] =
      Derive.as_bytes test2Schema [rstField, funField] ∧
    List.Sorted fieldLE (sortFields [funField, rstField]) ∧
    (sortFields [funField, rstField]).Perm [funField, rstField] :=
  as_bytes_wire_position_order test2Schema [funField, rstField] [rstField, funField]
    (by decide) (by decide)

/-- The serialization of the client.rs value `Test2Cmd { fun: DM, rst: Some(Reset) }`
reproduces the bytes its test `string_sent` asserts: "AT+FUN=1,6\r\n" —
the value of `rst` (position 0) before that of `fun` (position 1) although `fun` is
declared first. -/
theorem test2cmd_bytes :
    Derive.as_bytes test2Schema [funField, rstField] =
      [65, 84, 43, 70, 85, 78, 61, 49, 44, 54, 13, 10] := by decide

/-- C10: whenever the rendered command fits the declared `CommandLen`
capacity, serde_at serialization succeeds, so the `panic!` branch of the
generated `as_bytes` is not taken; the rendered length is exactly `cmd_len`
(the fixed overhead counted by cmd.rs) plus the joined argument bytes. -/
theorem as_bytes_no_panic (s : CmdSchema) (structLen : Nat) (fields : List FieldSpec)
    (hfit : (Derive.as_bytes s fields).length ≤ commandLen s structLen) :
    as_bytes_checked s structLen fields = some (Derive.as_bytes s fields) ∧
    (Derive.as_bytes s fields).length =
      cmd_len s + (joinComma (serializedArgs fields)).length := by
  constructor
  · unfold as_bytes_checked to_vec
    simp [hfit]
  · unfold Derive.as_bytes renderCmd cmd_len
    cases hsep : s.value_sep <;> simp [hsep] <;> omega

/-- C10 witness: the Test2Cmd schema with a struct length of 3, exactly the
joined argument bytes "1,6". -/
theorem as_bytes_no_panic_witness :
    as_bytes_checked test2Schema 3 [funField, rstField] =
      some (Derive.as_bytes test2Schema [funField, rstField]) ∧
    (Derive.as_bytes test2Schema [funField, rstField]).length =
      cmd_len test2Schema + (joinComma (serializedArgs [funField, rstField])).length :=
  as_bytes_no_panic test2Schema 3 [funField, rstField] (by decide)
